import Mathlib

/-!
Verification of the saliency-project bandit task.

Shallow embedding of the trial-outcome evaluator, the variable-ratio
schedule generator, the bonus calculator and the questionnaire scoring of
the repository (`bandit_task/task_logic.py`,
`bandit_task/variable_ratio_schedule.py`, `task/vr_schedule.py`,
`bandit_task/questionnaire_survey.py`).  Stateful Python code is embedded
as explicit state passing; fallible list indexing returns `Option` so that
an out-of-bounds lookup (a Python `IndexError`) is `none`.
-/

/-- Configuration of the experiment: the FORCED_SALIENCY toggle
(`CONFIG['TASK_PARAMS']['FORCED_SALIENCY']`, default `False`) and the
variable-ratio schedule loaded at startup (`self.vr_schedule`). -/
structure Config where
  forcedSaliency : Bool
  schedule : List Nat
deriving Repr, DecidableEq

/-- The mutable experiment state of `BanditExperiment.__init__`:
`self.schedule_index = -1`, `self.trial_counter = 0`, `self.total_wins = 0`. -/
structure ExpState where
  scheduleIndex : Int
  trialCounter : Nat
  totalWins : Nat
deriving Repr, DecidableEq

/-- The initial state set up in `BanditExperiment.__init__`. -/
def initState : ExpState := ⟨-1, 0, 0⟩

/-- Python list indexing `xs[i]`: a negative index counts from the end;
an index out of range raises `IndexError`, embedded as `none`. -/
def pyGet (xs : List Nat) (i : Int) : Option Nat :=
  let j : Int := if i < 0 then i + xs.length else i
  if 0 ≤ j then xs.get? j.toNat else none

/-- `BanditExperiment._determine_feedback_condition` (task_logic.py:342-350).
Reads `self.trial_counter` and `self.vr_schedule[self.schedule_index]`
(with Python short-circuit `or`: under FORCED_SALIENCY the schedule is not
consulted when the counter has reached 10), possibly resets the counter,
and returns the feedback-condition string.  `none` models an IndexError. -/
def determineFeedbackCondition (cfg : Config) (s : ExpState) :
    Option (ExpState × String) :=
  if cfg.forcedSaliency then
    if 10 ≤ s.trialCounter then some ({s with trialCounter := 0}, "salient")
    else
      match pyGet cfg.schedule s.scheduleIndex with
      | none => none
      | some v =>
        if v = 1 then some ({s with trialCounter := 0}, "salient")
        else some (s, "non-salient")
  else
    match pyGet cfg.schedule s.scheduleIndex with
    | none => none
    | some v =>
      if v = 1 then some (s, "salient") else some (s, "non-salient")

/-- `BanditExperiment._process_outcome` (task_logic.py:331-340).
`win_this_trial = payoffs[choice] == 1`; on a win `self.total_wins` and
`self.schedule_index` are incremented and the feedback condition is
determined; on a loss the state is untouched and the condition is
"non-salient".  Returns `(state, win_this_trial, feedback_cond)`;
`none` models a propagating IndexError. -/
def processOutcome (cfg : Config) (s : ExpState) (choice : Nat)
    (payoffs : Nat × Nat) : Option (ExpState × Bool × String) :=
  let winThisTrial := (if choice = 0 then payoffs.1 else payoffs.2) = 1
  if winThisTrial then
    match determineFeedbackCondition cfg
        {s with totalWins := s.totalWins + 1,
                scheduleIndex := s.scheduleIndex + 1} with
    | none => none
    | some (s2, cond) => some (s2, true, cond)
  else
    some (s, false, "non-salient")

/-- Claim C1: with the forced-saliency toggle disabled, on a winning trial
(the chosen arm's payoff equals 1) the schedule cursor advances by exactly
one position, and the feedback condition is "salient" when the schedule
value at the new cursor position equals 1 and "non-salient" when it equals
0, provided the new cursor position is within the schedule's bounds. -/
theorem processOutcome_schedule_driven_win (cfg : Config) (s : ExpState)
    (choice : Nat) (payoffs : Nat × Nat) (v : Nat)
    (hcfg : cfg.forcedSaliency = false)
    (hwin : (if choice = 0 then payoffs.1 else payoffs.2) = 1)
    (hv : pyGet cfg.schedule (s.scheduleIndex + 1) = some v) :
    processOutcome cfg s choice payoffs =
      some ({s with totalWins := s.totalWins + 1,
                    scheduleIndex := s.scheduleIndex + 1}, true,
            if v = 1 then "salient" else "non-salient") := by
  simp only [processOutcome, determineFeedbackCondition, hcfg, hwin,
    if_true, Bool.false_eq_true, if_false]
  simp only [hv]
  by_cases h1 : v = 1 <;> simp [h1]

/-- Witness for C1 at a concrete input: schedule `[1]`, initial state,
choice 0 with payoff 1; the cursor moves from -1 to 0 and the condition is
"salient" because the schedule value at position 0 is 1. -/
theorem processOutcome_schedule_driven_win_witness :
    processOutcome ⟨false, [1]⟩ initState 0 (1, 0) =
      some (⟨0, 0, 1⟩, true, "salient") := by
  have h := processOutcome_schedule_driven_win ⟨false, [1]⟩ initState 0 (1, 0) 1
    rfl rfl (by decide)
  simpa [initState] using h

/-- Counterexample to claim C2: with the forced-saliency toggle enabled and
the trial counter at 5 (below 10), the schedule value still determines the
outcome — schedule value 1 at the new cursor yields "salient" with the
counter reset, while schedule value 0 yields "non-salient" — refuting that
the counter is reset only when it reaches 10 and that the schedule value
does not determine the outcome under the toggle. -/
theorem processOutcome_forced_counterexample :
    processOutcome ⟨true, [1, 0]⟩ ⟨-1, 5, 0⟩ 0 (1, 0) =
      some (⟨0, 0, 1⟩, true, "salient") ∧
    processOutcome ⟨true, [0, 1]⟩ ⟨-1, 5, 0⟩ 0 (1, 0) =
      some (⟨0, 5, 1⟩, true, "non-salient") := by
  constructor <;> rfl

/-- Claim C2 (amended): with the forced-saliency toggle enabled, on a
winning trial: (a) if the trial counter has reached 10, the condition is
forced to "salient" and the counter reset without consulting the schedule
(regardless of the schedule value, even when the cursor is out of bounds);
(b) if the counter is below 10 and the new cursor position is in bounds,
the condition is "salient" with the counter reset when the schedule value
equals 1, and "non-salient" with the counter untouched otherwise. -/
theorem processOutcome_forced_win (cfg : Config) (s : ExpState)
    (choice : Nat) (payoffs : Nat × Nat)
    (hcfg : cfg.forcedSaliency = true)
    (hwin : (if choice = 0 then payoffs.1 else payoffs.2) = 1) :
    (10 ≤ s.trialCounter →
      processOutcome cfg s choice payoffs =
        some (⟨s.scheduleIndex + 1, 0, s.totalWins + 1⟩, true, "salient")) ∧
    (s.trialCounter < 10 → ∀ v,
      pyGet cfg.schedule (s.scheduleIndex + 1) = some v →
      processOutcome cfg s choice payoffs =
        (if v = 1 then
          some (⟨s.scheduleIndex + 1, 0, s.totalWins + 1⟩, true, "salient")
        else
          some (⟨s.scheduleIndex + 1, s.trialCounter, s.totalWins + 1⟩,
                true, "non-salient"))) := by
  constructor
  · intro h10
    simp [processOutcome, determineFeedbackCondition, hcfg, hwin, h10]
  · intro h10 v hv
    have h10' : ¬ 10 ≤ s.trialCounter := Nat.not_le.mpr h10
    simp only [processOutcome, determineFeedbackCondition, hcfg, hwin,
      if_true, h10', if_false]
    simp only [hv]
    by_cases h1 : v = 1 <;> simp [h1]

/-- Witness for the amended C2 at a concrete input: with the counter at 10
and an empty schedule, the condition is forced to "salient" and the counter
reset even though the cursor is out of bounds. -/
theorem processOutcome_forced_win_witness :
    processOutcome ⟨true, []⟩ ⟨-1, 10, 0⟩ 0 (1, 0) =
      some (⟨0, 0, 1⟩, true, "salient") :=
  (processOutcome_forced_win ⟨true, []⟩ ⟨-1, 10, 0⟩ 0 (1, 0) rfl rfl).1
    (by decide)

/-- Claim C3: on a losing trial (the chosen arm's payoff equals 0), the
evaluator returns feedback condition "non-salient" and leaves the state —
in particular the schedule cursor — unchanged. -/
theorem processOutcome_loss (cfg : Config) (s : ExpState) (choice : Nat)
    (payoffs : Nat × Nat)
    (hloss : (if choice = 0 then payoffs.1 else payoffs.2) = 0) :
    processOutcome cfg s choice payoffs = some (s, false, "non-salient") := by
  have hne : ¬ ((if choice = 0 then payoffs.1 else payoffs.2) = 1) := by
    omega
  simp [processOutcome, hne]

/-- Witness for C3 at a concrete input: choice 1 with payoff 0 leaves the
initial state unchanged and yields "non-salient". -/
theorem processOutcome_loss_witness :
    processOutcome ⟨false, [1]⟩ initState 1 (1, 0) =
      some (initState, false, "non-salient") :=
  processOutcome_loss ⟨false, [1]⟩ initState 1 (1, 0) rfl

/-- One row of the per-trial CSV written by `TrialData.add_trial` /
`BanditExperiment._log_trial`: the trial column is 1-based
(`trial_num + 1`), `reward = int(reward)`, and the condition string is
encoded as an integer code. -/
structure TrialRecord where
  mode : String
  trial : Nat
  choice : Option Nat
  reactionTime : Option ℚ
  reward : Nat
  condition : Nat
deriving Repr, DecidableEq

/-- The condition encoding of `_log_trial` (task_logic.py:385-389):
non-salient ↦ 0, salient ↦ 1, missed ↦ 2, with 2 as the `.get` default. -/
def conditionCode (c : String) : Nat :=
  if c = "non-salient" then 0
  else if c = "salient" then 1
  else if c = "missed" then 2
  else 2

/-- One trial's external input: the per-arm payoffs looked up from the
random-walk table, and the keyboard response — `none` when no key arrived
within MAX_RESPONSE_TIME, otherwise the decoded choice and reaction time. -/
structure TrialInput where
  payoffs : Nat × Nat
  response : Option (Nat × ℚ)
deriving Repr, DecidableEq

/-- `BanditExperiment._run_single_trial` (task_logic.py:288-315), after the
stimulus placement and response collection: a missed response goes through
`_handle_missed_trial` (task_logic.py:399-405), which logs choice `None`,
reaction time `None`, reward `False` and condition "missed" without
touching the evaluator state; otherwise the outcome is processed and
logged.  `none` models a propagating IndexError. -/
def runSingleTrial (cfg : Config) (s : ExpState) (mode : String)
    (trialNum : Nat) (input : TrialInput) :
    Option (ExpState × TrialRecord) :=
  match input.response with
  | none =>
      some (s, ⟨mode, trialNum + 1, none, none, 0, conditionCode ("missed")⟩)
  | some (choice, rt) =>
      match processOutcome cfg s choice input.payoffs with
      | none => none
      | some (s1, winThisTrial, cond) =>
          some (s1, ⟨mode, trialNum + 1, some choice, some rt,
                     if winThisTrial then 1 else 0, conditionCode cond⟩)

/-- The trial loops of `run_practice_trials` (task_logic.py:273-278) and
`run_main_trials` (task_logic.py:280-286): for each trial
`self.trial_counter` is incremented and `_run_single_trial` is run; an
exception (`none`) aborts the loop. -/
def runTrials (cfg : Config) (mode : String) :
    ExpState → Nat → List TrialInput → Option (ExpState × List TrialRecord)
  | s, _, [] => some (s, [])
  | s, trialNum, input :: rest =>
      match runSingleTrial cfg {s with trialCounter := s.trialCounter + 1}
          mode trialNum input with
      | none => none
      | some (s1, rec) =>
          match runTrials cfg mode s1 (trialNum + 1) rest with
          | none => none
          | some (s2, recs) => some (s2, rec :: recs)

/-- `BanditExperiment.run_practice_trials` (task_logic.py:273-278): run the
practice trials, then reset `self.total_wins = 0` — the schedule cursor is
not reset. -/
def runPracticeTrials (cfg : Config) (s : ExpState)
    (trials : List TrialInput) : Option (ExpState × List TrialRecord) :=
  match runTrials cfg ("practice") s 0 trials with
  | none => none
  | some (s1, recs) => some ({s1 with totalWins := 0}, recs)

/-- Outcome of a session: it either completes with a bonus, or an unhandled
exception reaches the top-level handler of `run_task`
(task_logic.py:437-450), which terminates the session. -/
inductive SessionResult where
  | completed (bonus : ℚ)
  | terminated
deriving Repr, DecidableEq

/-- Python 3 `round` (round half to even) on rationals. -/
def pythonRound (q : ℚ) : ℤ :=
  if q - ⌊q⌋ < 1/2 then ⌊q⌋
  else if 1/2 < q - ⌊q⌋ then ⌊q⌋ + 1
  else if ⌊q⌋ % 2 = 0 then ⌊q⌋ else ⌊q⌋ + 1

/-- `calculate_bonus` (task_logic.py:191-195): 0.0 when `max_wins == 0`,
otherwise `round(((total_wins / max_wins) * BONUS_MAX_EUR) / 0.5) * 0.5`
with `BONUS_MAX_EUR = 3.0`. -/
def calculate_bonus (totalWins maxWins : Nat) : ℚ :=
  if maxWins = 0 then 0
  else (pythonRound (((totalWins : ℚ) / (maxWins : ℚ) * 3) / (1/2)) : ℚ)
         * (1/2)

/-- `run_task` (task_logic.py:424-450): instructions, practice trials,
main trials, final screen computing the bonus from `self.total_wins`; any
exception in between is caught by the top-level handler, which terminates
the session. -/
def run_task (cfg : Config) (practiceTrials mainTrials : List TrialInput)
    (maxWins : Nat) : SessionResult :=
  match runPracticeTrials cfg initState practiceTrials with
  | none => .terminated
  | some (s1, _) =>
      match runTrials cfg ("main") s1 0 mainTrials with
      | none => .terminated
      | some (s2, _) => .completed (calculate_bonus s2.totalWins maxWins)

/-- Claim C4: a trial with no key press within the response deadline is
recorded as a missed trial — reward 0, null choice, null reaction time,
condition code `conditionCode "missed" = 2` — the evaluator state (in
particular the schedule cursor) is unchanged, and the result is a valid
outcome (`some`), not an error. -/
theorem runSingleTrial_missed (cfg : Config) (s : ExpState) (mode : String)
    (trialNum : Nat) (payoffs : Nat × Nat) :
    runSingleTrial cfg s mode trialNum ⟨payoffs, none⟩ =
      some (s, ⟨mode, trialNum + 1, none, none, 0, 2⟩) := by
  rfl

/-- A trial input on which the participant responds and the chosen arm's
payoff is 1 (`payoffs[choice] == 1` in `_process_outcome`). -/
def isWinTrial (t : TrialInput) : Bool :=
  match t.response with
  | none => false
  | some (choice, _) =>
      decide ((if choice = 0 then t.payoffs.1 else t.payoffs.2) = 1)

/-- Number of winning trials in a list of trial inputs. -/
def countWins (ts : List TrialInput) : Nat := (ts.filter isWinTrial).length

lemma determineFeedbackCondition_state (cfg : Config) (s s' : ExpState)
    (c : String) (h : determineFeedbackCondition cfg s = some (s', c)) :
    s'.scheduleIndex = s.scheduleIndex ∧ s'.totalWins = s.totalWins := by
  unfold determineFeedbackCondition at h
  repeat' split at h
  all_goals simp_all
  all_goals obtain ⟨h1, h2⟩ := h
  all_goals subst h1
  all_goals exact ⟨rfl, rfl⟩

lemma runSingleTrial_state (cfg : Config) (s : ExpState) (mode : String)
    (n : Nat) (t : TrialInput) (s1 : ExpState) (rec : TrialRecord)
    (h : runSingleTrial cfg s mode n t = some (s1, rec)) :
    s1.scheduleIndex = s.scheduleIndex + (if isWinTrial t then 1 else 0) ∧
    s1.totalWins = s.totalWins + (if isWinTrial t then 1 else 0) := by
  obtain ⟨payoffs, resp⟩ := t
  cases resp with
  | none =>
      simp only [runSingleTrial, Option.some.injEq, Prod.mk.injEq] at h
      obtain ⟨h1, _⟩ := h
      subst h1
      simp [isWinTrial]
  | some cr =>
      obtain ⟨choice, rt⟩ := cr
      simp only [runSingleTrial] at h
      by_cases hw : (if choice = 0 then payoffs.1 else payoffs.2) = 1
      · simp only [processOutcome, hw, if_true] at h
        cases hd : determineFeedbackCondition cfg
            {s with totalWins := s.totalWins + 1,
                    scheduleIndex := s.scheduleIndex + 1} with
        | none => rw [hd] at h; simp at h
        | some p =>
            obtain ⟨s2, cond⟩ := p
            rw [hd] at h
            simp only [Option.some.injEq, Prod.mk.injEq] at h
            obtain ⟨h1, _⟩ := h
            subst h1
            have hst := determineFeedbackCondition_state cfg _ s2 cond hd
            have hwt : isWinTrial ⟨payoffs, some (choice, rt)⟩ = true := by
              simp [isWinTrial, hw]
            rw [hwt]
            exact ⟨by rw [hst.1]; simp, by rw [hst.2]; simp⟩
      · simp only [processOutcome, hw, if_false] at h
        simp only [Option.some.injEq, Prod.mk.injEq] at h
        obtain ⟨h1, _⟩ := h
        subst h1
        have hwt : isWinTrial ⟨payoffs, some (choice, rt)⟩ = false := by
          simp [isWinTrial, hw]
        rw [hwt]
        simp

lemma runTrials_wins (cfg : Config) (mode : String) (ts : List TrialInput) :
    ∀ (s : ExpState) (n : Nat) (s' : ExpState) (recs : List TrialRecord),
      runTrials cfg mode s n ts = some (s', recs) →
      s'.scheduleIndex = s.scheduleIndex + (countWins ts : Int) ∧
      s'.totalWins = s.totalWins + countWins ts := by
  induction ts with
  | nil =>
      intro s n s' recs h
      simp only [runTrials, Option.some.injEq, Prod.mk.injEq] at h
      obtain ⟨h1, _⟩ := h
      subst h1
      simp [countWins]
  | cons t rest ih =>
      intro s n s' recs h
      unfold runTrials at h
      cases hstep : runSingleTrial cfg {s with trialCounter := s.trialCounter + 1}
          mode n t with
      | none => rw [hstep] at h; simp at h
      | some p =>
          obtain ⟨s1, rec⟩ := p
          rw [hstep] at h
          dsimp only at h
          cases hrest : runTrials cfg mode s1 (n + 1) rest with
          | none => rw [hrest] at h; simp at h
          | some q =>
              obtain ⟨s2, recs2⟩ := q
              rw [hrest] at h
              simp only [Option.some.injEq, Prod.mk.injEq] at h
              obtain ⟨h1, _⟩ := h
              rw [← h1]
              have h2 := runSingleTrial_state cfg _ mode n t s1 rec hstep
              have h3 := ih s1 (n + 1) s2 recs2 hrest
              have hc : countWins (t :: rest) =
                  (if isWinTrial t then 1 else 0) + countWins rest := by
                simp only [countWins, List.filter_cons]
                by_cases hwt : isWinTrial t
                all_goals simp [hwt]
                all_goals omega
              rw [hc]
              constructor
              · rw [h3.1, h2.1]
                by_cases hwt : isWinTrial t
                all_goals simp [hwt]
                all_goals ring
              · rw [h3.2, h2.2]
                by_cases hwt : isWinTrial t
                all_goals simp [hwt]
                all_goals omega

lemma runTrials_append_none (cfg : Config) (mode : String)
    (xs : List TrialInput) :
    ∀ (s : ExpState) (n : Nat) (s' : ExpState) (recs : List TrialRecord)
      (ys : List TrialInput),
      runTrials cfg mode s n xs = some (s', recs) →
      runTrials cfg mode s' (n + xs.length) ys = none →
      runTrials cfg mode s n (xs ++ ys) = none := by
  induction xs with
  | nil =>
      intro s n s' recs ys h h2
      simp only [runTrials, Option.some.injEq, Prod.mk.injEq] at h
      obtain ⟨h1, _⟩ := h
      subst h1
      simpa using h2
  | cons t rest ih =>
      intro s n s' recs ys h h2
      unfold runTrials at h
      rw [List.cons_append]
      unfold runTrials
      cases hstep : runSingleTrial cfg {s with trialCounter := s.trialCounter + 1}
          mode n t with
      | none =>
          rw [hstep] at h
          try simp at h
      | some p =>
          obtain ⟨s1, rec⟩ := p
          rw [hstep] at h
          dsimp only at h
          dsimp only
          cases hrest : runTrials cfg mode s1 (n + 1) rest with
          | none => rw [hrest] at h; simp at h
          | some q =>
              obtain ⟨s2, recs2⟩ := q
              rw [hrest] at h
              simp only [Option.some.injEq, Prod.mk.injEq] at h
              obtain ⟨h1, _⟩ := h
              rw [← h1] at h2
              have h2' : runTrials cfg mode s2 (n + 1 + rest.length) ys = none := by
                have hlen : n + (t :: rest).length = n + 1 + rest.length := by
                  simp only [List.length_cons]
                  omega
                rw [hlen] at h2
                exact h2
              rw [ih s1 (n + 1) s2 recs2 ys hrest h2']

lemma runTrials_overrun_head (cfg : Config) (mode : String) (s : ExpState)
    (n : Nat) (payoffs : Nat × Nat) (choice : Nat) (rt : ℚ)
    (ys : List TrialInput)
    (hcfg : cfg.forcedSaliency = false)
    (hwin : (if choice = 0 then payoffs.1 else payoffs.2) = 1)
    (hidx : (cfg.schedule.length : Int) ≤ s.scheduleIndex + 1) :
    runTrials cfg mode s n (⟨payoffs, some (choice, rt)⟩ :: ys) = none := by
  have hget : pyGet cfg.schedule (s.scheduleIndex + 1) = none := by
    unfold pyGet
    have h0 : ¬ (s.scheduleIndex + 1 < 0) := by
      have : (0 : Int) ≤ (cfg.schedule.length : Int) := Int.ofNat_nonneg _
      omega
    simp only [h0, if_false]
    have h1 : (0 : Int) ≤ s.scheduleIndex + 1 := by
      have : (0 : Int) ≤ (cfg.schedule.length : Int) := Int.ofNat_nonneg _
      omega
    simp only [h1, if_true]
    apply List.get?_eq_none.mpr
    omega
  unfold runTrials runSingleTrial processOutcome determineFeedbackCondition
  simp [hcfg, hwin, hget]

/-- Claim C9: the schedule lookup in the feedback-condition decision is
unguarded — under the default policy, once the schedule cursor would move
past the end of the schedule, a winning trial makes the lookup fail, and
the resulting error propagates out of the trial loop to the top-level
handler of `run_task`, terminating the session. -/
theorem run_task_overrun_terminates (cfg : Config)
    (pts mainPre mainSuf : List TrialInput) (payoffs : Nat × Nat)
    (choice : Nat) (rt : ℚ) (maxW : Nat) (s1 s : ExpState)
    (recs1 recs : List TrialRecord)
    (hcfg : cfg.forcedSaliency = false)
    (hprac : runPracticeTrials cfg initState pts = some (s1, recs1))
    (hpre : runTrials cfg ("main") s1 0 mainPre = some (s, recs))
    (hwin : (if choice = 0 then payoffs.1 else payoffs.2) = 1)
    (hidx : (cfg.schedule.length : Int) ≤ s.scheduleIndex + 1) :
    run_task cfg pts (mainPre ++ ⟨payoffs, some (choice, rt)⟩ :: mainSuf)
      maxW = SessionResult.terminated := by
  unfold run_task
  rw [hprac]
  dsimp only
  have hnone := runTrials_overrun_head cfg ("main") s mainPre.length payoffs
    choice rt mainSuf hcfg hwin hidx
  have hall := runTrials_append_none cfg ("main") mainPre s1 0 s recs
    (⟨payoffs, some (choice, rt)⟩ :: mainSuf) hpre (by simpa using hnone)
  rw [hall]

/-- Witness for C9 at a concrete input: a one-entry schedule, no practice
trials, one winning main trial consuming the schedule, then a second
winning trial whose lookup overruns the schedule: the session terminates. -/
theorem run_task_overrun_terminates_witness :
    run_task ⟨false, [1]⟩ []
      ([⟨(1, 1), some (0, 1)⟩] ++ ⟨(1, 0), some (0, 2)⟩ :: []) 5 =
      SessionResult.terminated :=
  run_task_overrun_terminates ⟨false, [1]⟩ [] [⟨(1, 1), some (0, 1)⟩] []
    (1, 0) 0 2 5 ⟨-1, 0, 0⟩ ⟨0, 1, 1⟩ []
    [⟨("main"), 1, some 0, some 1, 1, 1⟩] rfl (by rfl) (by rfl) rfl
    (by decide)

/-- Claim C10: `run_practice_trials` resets the total-wins counter to 0
after the practice phase but leaves the schedule cursor unchanged: the
cursor after practice equals -1 plus the number of practice wins (each
practice win permanently consumes one schedule entry), and a completed
session computes the bonus from main-trial wins only. -/
theorem practice_consumes_schedule (cfg : Config) (pts : List TrialInput)
    (s1 : ExpState) (recs : List TrialRecord)
    (h : runPracticeTrials cfg initState pts = some (s1, recs)) :
    s1.totalWins = 0 ∧
    s1.scheduleIndex = -1 + (countWins pts : Int) ∧
    (∀ (mts : List TrialInput) (maxW : Nat) (s2 : ExpState)
       (recs2 : List TrialRecord),
       runTrials cfg ("main") s1 0 mts = some (s2, recs2) →
       run_task cfg pts mts maxW =
         SessionResult.completed (calculate_bonus (countWins mts) maxW)) := by
  have hmain : ∀ (mts : List TrialInput) (maxW : Nat) (s2 : ExpState)
      (recs2 : List TrialRecord),
      runTrials cfg ("main") s1 0 mts = some (s2, recs2) →
      s1.totalWins = 0 →
      run_task cfg pts mts maxW =
        SessionResult.completed (calculate_bonus (countWins mts) maxW) := by
    intro mts maxW s2 recs2 hm hz
    unfold run_task
    rw [h]
    dsimp only
    rw [hm]
    dsimp only
    have hw := runTrials_wins cfg ("main") mts s1 0 s2 recs2 hm
    rw [hw.2, hz]
    simp
  unfold runPracticeTrials at h
  cases hrun : runTrials cfg ("practice") initState 0 pts with
  | none =>
      rw [hrun] at h
      simp at h
  | some p =>
      obtain ⟨sp, recsp⟩ := p
      rw [hrun] at h
      simp only [Option.some.injEq, Prod.mk.injEq] at h
      obtain ⟨h1, _⟩ := h
      have hz : s1.totalWins = 0 := by rw [← h1]
      have hwp := runTrials_wins cfg ("practice") pts initState 0 sp recsp hrun
      have hidx : s1.scheduleIndex = -1 + (countWins pts : Int) := by
        rw [← h1]
        show sp.scheduleIndex = -1 + (countWins pts : Int)
        rw [hwp.1]
        simp [initState]
      exact ⟨hz, hidx, fun mts maxW s2 recs2 hm => hmain mts maxW s2 recs2 hm hz⟩

/-- Witness for C10 at a concrete input: one practice trial that wins with
schedule `[0, 1]` — after practice the total-wins counter is 0 while the
schedule cursor stands at 0, having consumed one entry. -/
theorem practice_consumes_schedule_witness :
    (⟨0, 1, 0⟩ : ExpState).totalWins = 0 ∧
    (⟨0, 1, 0⟩ : ExpState).scheduleIndex =
      -1 + (countWins [⟨(1, 0), some (0, 1)⟩] : Int) ∧
    (∀ (mts : List TrialInput) (maxW : Nat) (s2 : ExpState)
       (recs2 : List TrialRecord),
       runTrials ⟨false, [0, 1]⟩ ("main") ⟨0, 1, 0⟩ 0 mts = some (s2, recs2) →
       run_task ⟨false, [0, 1]⟩ [⟨(1, 0), some (0, 1)⟩] mts maxW =
         SessionResult.completed (calculate_bonus (countWins mts) maxW)) :=
  practice_consumes_schedule ⟨false, [0, 1]⟩ [⟨(1, 0), some (0, 1)⟩]
    ⟨0, 1, 0⟩ [⟨("practice"), 1, some 0, some 1, 1, 0⟩] (by rfl)

/-- `create_vr_schedule` (`variable_ratio_schedule.py:4-14` and
`task/vr_schedule.py:3-12`): starting from an empty list, 50 times extend
the schedule by an independently shuffled permutation of the base sequence
`[0, 0, 0, 1]`.  The ambient random source is abstracted as `draw`, the
permutation drawn for each repetition. -/
def create_vr_schedule (draw : Nat → List Nat) : List Nat :=
  (List.range 50).foldl (fun sched i => sched ++ draw i) []

lemma foldl_append_eq_flatten (draw : Nat → List Nat) (l : List Nat) :
    ∀ acc : List Nat,
      l.foldl (fun sched i => sched ++ draw i) acc =
        acc ++ (l.map draw).flatten := by
  induction l with
  | nil => intro acc; simp
  | cons x xs ih =>
      intro acc
      simp only [List.foldl_cons, List.map_cons, List.flatten_cons, ih,
        List.append_assoc]

lemma flatten_block (blocks : List (List Nat))
    (hlen : ∀ b ∈ blocks, b.length = 4) :
    ∀ k, k < blocks.length →
      (blocks.flatten.drop (4 * k)).take 4 = blocks.getD k [] := by
  induction blocks with
  | nil => intro k hk; simp at hk
  | cons b bs ih =>
      intro k hk
      have hb : b.length = 4 := hlen b (List.mem_cons_self b bs)
      cases k with
      | zero =>
          simp only [Nat.mul_zero, List.drop_zero, List.flatten_cons,
            List.getD_cons_zero]
          exact List.take_left' hb
      | succ k' =>
          have h4 : 4 * (k' + 1) = b.length + 4 * k' := by rw [hb]; ring
          simp only [List.flatten_cons, List.getD_cons_succ]
          rw [h4, ← List.drop_drop, List.drop_left]
          have hk' : k' < bs.length := by
            simp only [List.length_cons] at hk
            omega
          exact ih (fun x hx => hlen x (List.mem_cons_of_mem b hx)) k' hk'

lemma create_vr_schedule_block (draw : Nat → List Nat)
    (hlen : ∀ i < 50, (draw i).length = 4) (k : Nat) (hk : k < 50) :
    ((create_vr_schedule draw).drop (4 * k)).take 4 = draw k := by
  unfold create_vr_schedule
  rw [foldl_append_eq_flatten draw (List.range 50) []]
  rw [List.nil_append]
  have hmem : ∀ b ∈ (List.range 50).map draw, b.length = 4 := by
    intro b hbmem
    obtain ⟨i, hi, rfl⟩ := List.mem_map.mp hbmem
    exact hlen i (List.mem_range.mp hi)
  have hklt : k < ((List.range 50).map draw).length := by
    simp [hk]
  rw [flatten_block ((List.range 50).map draw) hmem k hklt]
  rw [List.getD_eq_getElem?_getD, List.getElem?_map, List.getElem?_range hk]
  rfl

/-- Claim C5: for every draw from the ambient random source (each drawn
block being a permutation of the base sequence `[0, 0, 0, 1]`), the
variable-ratio schedule generator returns a sequence of 4 × 50 = 200
entries in which every block-aligned 4-element window is a permutation of
the multiset {0,0,0,1}, hence sums to exactly 1. -/
theorem create_vr_schedule_spec (draw : Nat → List Nat)
    (hdraw : ∀ i < 50, (draw i).Perm [0, 0, 0, 1]) :
    (create_vr_schedule draw).length = 200 ∧
    ∀ k < 50,
      (((create_vr_schedule draw).drop (4 * k)).take 4).Perm [0, 0, 0, 1] ∧
      (((create_vr_schedule draw).drop (4 * k)).take 4).sum = 1 := by
  have hlen : ∀ i < 50, (draw i).length = 4 := by
    intro i hi
    have := (hdraw i hi).length_eq
    simpa using this
  constructor
  · unfold create_vr_schedule
    rw [foldl_append_eq_flatten draw (List.range 50) [], List.nil_append]
    rw [List.length_flatten]
    have hmaps : ((List.range 50).map draw).map List.length =
        (List.range 50).map (fun _ => 4) := by
      rw [List.map_map]
      apply List.map_congr_left
      intro i hi
      exact hlen i (List.mem_range.mp hi)
    rw [hmaps]
    have hrep : (List.range 50).map (fun _ => (4 : Nat)) =
        List.replicate 50 4 := by
      rw [List.map_const']
      simp
    rw [hrep]
    simp [List.sum_replicate]
  · intro k hk
    rw [create_vr_schedule_block draw hlen k hk]
    refine ⟨hdraw k hk, ?_⟩
    have := (hdraw k hk).sum_eq
    simpa using this

/-- Witness for C5 at a concrete draw: the identity draw returning the
base sequence `[0, 0, 0, 1]` for every repetition. -/
theorem create_vr_schedule_spec_witness :
    (∀ i < 50, (([0, 0, 0, 1] : List Nat)).Perm [0, 0, 0, 1]) ∧
    ((create_vr_schedule (fun _ => [0, 0, 0, 1])).length = 200 ∧
     ∀ k < 50,
       (((create_vr_schedule (fun _ => [0, 0, 0, 1])).drop (4 * k)).take 4).Perm
         [0, 0, 0, 1] ∧
       (((create_vr_schedule (fun _ => [0, 0, 0, 1])).drop (4 * k)).take 4).sum
         = 1) :=
  ⟨fun _ _ => List.Perm.refl _,
   create_vr_schedule_spec (fun _ => [0, 0, 0, 1])
     (fun _ _ => List.Perm.refl _)⟩

/-- Claim C6: `calculate_bonus` is a deterministic pure function returning
0.0 when `max_wins = 0`, and otherwise
`round(((total_wins / max_wins) * 3.0) / 0.5) * 0.5` (Python 3 `round`,
round half to even); in particular `calculate_bonus 0 K = 0.0` for every
`K > 0`. -/
theorem calculate_bonus_spec :
    (∀ w : Nat, calculate_bonus w 0 = 0) ∧
    (∀ w K : Nat, K ≠ 0 →
      calculate_bonus w K =
        (pythonRound (((w : ℚ) / (K : ℚ) * 3) / (1/2)) : ℚ) * (1/2)) ∧
    (∀ K : Nat, 0 < K → calculate_bonus 0 K = 0) := by
  refine ⟨?_, ?_, ?_⟩
  · intro w
    simp [calculate_bonus]
  · intro w K hK
    simp [calculate_bonus, hK]
  · intro K hK
    have hK0 : K ≠ 0 := Nat.pos_iff_ne_zero.mp hK
    have harg : (((0 : Nat) : ℚ) / (K : ℚ) * 3) / (1/2) = 0 := by
      norm_num
    simp only [calculate_bonus, hK0, if_false, harg]
    norm_num [pythonRound]

/-- Witness for C6 at concrete inputs: the zero-max guard, the general
formula at wins 5 of max 7, and the zero-wins case at max 7. -/
theorem calculate_bonus_spec_witness :
    calculate_bonus 3 0 = 0 ∧
    ((7 : Nat) ≠ 0 ∧
     calculate_bonus 5 7 =
       (pythonRound (((5 : ℚ) / (7 : ℚ) * 3) / (1/2)) : ℚ) * (1/2)) ∧
    (0 < (7 : Nat) ∧ calculate_bonus 0 7 = 0) :=
  ⟨calculate_bonus_spec.1 3,
   ⟨by decide, calculate_bonus_spec.2.1 5 7 (by decide)⟩,
   ⟨by decide, calculate_bonus_spec.2.2 7 (by decide)⟩⟩

/-- The reverse-scoring flags of the 15 BIS items, in item order
(`QuestionnaireApp.bis_items`, questionnaire_survey.py:70-86): items
1, 4, 5, 7, 8, 15 are flagged reverse. -/
def bisReverse : List Bool :=
  [true, false, false, true, true, false, true, true, false, false, false,
   false, false, false, true]

/-- The BIS-total loop of `QuestionnaireApp.save_all_data`
(questionnaire_survey.py:378-383): reverse items contribute
`5 - value`, others contribute `value`. -/
def bisTotal (responses : List Int) : Int :=
  (responses.zip bisReverse).foldl
    (fun acc p => if p.2 then acc + (5 - p.1) else acc + p.1) 0

lemma bisFold_sum (l : List (Int × Bool)) :
    ∀ acc : Int,
      l.foldl (fun acc p => if p.2 then acc + (5 - p.1) else acc + p.1) acc =
        acc + (l.map (fun p => if p.2 then 5 - p.1 else p.1)).sum := by
  induction l with
  | nil => intro acc; simp
  | cons p ps ih =>
      intro acc
      simp only [List.foldl_cons, List.map_cons, List.sum_cons, ih]
      by_cases hp : p.2
      all_goals simp [hp]
      all_goals ring

/-- Claim C7: the BIS total is the sum over the 15 items of the raw
response, except that reverse-flagged items contribute `5 - response`; the
reverse-flagged positions are exactly items 1, 4, 5, 7, 8, 15 (0-based
indices 0, 3, 4, 6, 7, 14); and for the response vector of fifteen 1's the
total is 9 × 1 + 6 × 4 = 33. -/
theorem bisTotal_spec :
    (∀ rs : List Int,
      bisTotal rs =
        ((rs.zip bisReverse).map
          (fun p => if p.2 then 5 - p.1 else p.1)).sum) ∧
    ((List.range 15).filter (fun i => bisReverse.getD i false) =
      [0, 3, 4, 6, 7, 14]) ∧
    bisTotal (List.replicate 15 1) = 33 := by
  refine ⟨?_, by decide, by decide⟩
  intro rs
  unfold bisTotal
  rw [bisFold_sum]
  simp

/-- The four sensation-seeking subscale counters of `save_all_data`
(`ss_scores = {"SST": 0, "SSE": 0, "SSD": 0, "SSB": 0}`). -/
structure SSScores where
  sst : Nat
  sse : Nat
  ssd : Nat
  ssb : Nat
deriving Repr, DecidableEq

/-- The subscale labels of the 8 SSS items in item order
(`QuestionnaireApp.sss_items`, questionnaire_survey.py:89-98). -/
def sssSubscales : List String :=
  ["SSD", "SSB", "SST", "SSD", "SSE", "SSE", "SST", "SSB"]

/-- The predefined "correct" (scored) option of the 8 SSS items in item
order (questionnaire_survey.py:89-98). -/
def sssCorrect : List String := ["a", "b", "a", "a", "b", "b", "a", "b"]

/-- `ss_scores[item["subscale"]] += 1`: increment the counter named by the
item's subscale label (all labels occurring in the source are among the
four keys). -/
def bumpScore (sc : SSScores) (sub : String) : SSScores :=
  if sub = "SST" then {sc with sst := sc.sst + 1}
  else if sub = "SSE" then {sc with sse := sc.sse + 1}
  else if sub = "SSD" then {sc with ssd := sc.ssd + 1}
  else if sub = "SSB" then {sc with ssb := sc.ssb + 1}
  else sc

/-- The SSS scoring loop of `save_all_data` (questionnaire_survey.py:384-388):
for each item, the item's subscale counter is incremented iff the response
equals the item's "correct" option. -/
def ssScores (responses : List String) : SSScores :=
  (responses.zip (sssSubscales.zip sssCorrect)).foldl
    (fun sc p => if p.1 = p.2.2 then bumpScore sc p.2.1 else sc)
    ⟨0, 0, 0, 0⟩

/-- `ss_total = (SST + SSE + SSD + SSB) / 4` (questionnaire_survey.py:389). -/
def ss_total (sc : SSScores) : ℚ :=
  ((sc.sst + sc.sse + sc.ssd + sc.ssb : Nat) : ℚ) / 4

/-- `ss_percent = ss_total * 25` (questionnaire_survey.py:390). -/
def ss_percent (sc : SSScores) : ℚ := ss_total sc * 25

lemma ssFold_counts (l : List (String × String × String)) :
    ∀ sc : SSScores,
      l.foldl (fun sc p => if p.1 = p.2.2 then bumpScore sc p.2.1 else sc) sc =
        ⟨sc.sst + (l.filter
            (fun p => decide (p.2.1 = "SST" ∧ p.1 = p.2.2))).length,
         sc.sse + (l.filter
            (fun p => decide (p.2.1 = "SSE" ∧ p.1 = p.2.2))).length,
         sc.ssd + (l.filter
            (fun p => decide (p.2.1 = "SSD" ∧ p.1 = p.2.2))).length,
         sc.ssb + (l.filter
            (fun p => decide (p.2.1 = "SSB" ∧ p.1 = p.2.2))).length⟩ := by
  induction l with
  | nil => intro sc; simp
  | cons p l ih =>
      intro sc
      simp only [List.foldl_cons, List.filter_cons]
      by_cases hresp : p.1 = p.2.2
      · simp only [hresp, ite_true]
        rw [ih (bumpScore sc p.2.1)]
        by_cases h1 : p.2.1 = "SST"
        · simp [bumpScore, h1, hresp, SSScores.mk.injEq]
          try omega
        · by_cases h2 : p.2.1 = "SSE"
          · simp [bumpScore, h1, h2, hresp, SSScores.mk.injEq]
            try omega
          · by_cases h3 : p.2.1 = "SSD"
            · simp [bumpScore, h1, h2, h3, hresp, SSScores.mk.injEq]
              try omega
            · by_cases h4 : p.2.1 = "SSB"
              · simp [bumpScore, h1, h2, h3, h4, hresp, SSScores.mk.injEq]
                try omega
              · simp [bumpScore, h1, h2, h3, h4, hresp]
      · simp only [hresp, ite_false]
        rw [ih sc]
        simp [hresp]

/-- Claim C8: each subscale counter counts exactly the items of that
subscale whose response equals the item's predefined "correct" option;
the overall score is the mean of the four counts and the percentage is the
mean × 25; for the response vector matching all 8 "correct" labels the
counts are {SST: 2, SSE: 2, SSD: 2, SSB: 2}, the total is 2.0 and the
percentage is 50.0. -/
theorem ssScores_spec :
    (∀ rs : List String,
      ssScores rs =
        ⟨((rs.zip (sssSubscales.zip sssCorrect)).filter
            (fun p => decide (p.2.1 = "SST" ∧ p.1 = p.2.2))).length,
         ((rs.zip (sssSubscales.zip sssCorrect)).filter
            (fun p => decide (p.2.1 = "SSE" ∧ p.1 = p.2.2))).length,
         ((rs.zip (sssSubscales.zip sssCorrect)).filter
            (fun p => decide (p.2.1 = "SSD" ∧ p.1 = p.2.2))).length,
         ((rs.zip (sssSubscales.zip sssCorrect)).filter
            (fun p => decide (p.2.1 = "SSB" ∧ p.1 = p.2.2))).length⟩) ∧
    (∀ sc : SSScores,
      ss_percent sc =
        ((sc.sst + sc.sse + sc.ssd + sc.ssb : Nat) : ℚ) / 4 * 25) ∧
    ssScores sssCorrect = ⟨2, 2, 2, 2⟩ ∧
    ss_total (ssScores sssCorrect) = 2 ∧
    ss_percent (ssScores sssCorrect) = 50 := by
  have hfix : ssScores sssCorrect = ⟨2, 2, 2, 2⟩ := by decide
  refine ⟨?_, fun sc => rfl, hfix, ?_, ?_⟩
  · intro rs
    unfold ssScores
    rw [ssFold_counts]
    simp
  · rw [hfix]
    norm_num [ss_total]
  · rw [hfix]
    norm_num [ss_percent, ss_total]
